import Mathlib

/-!
Verification of the wcurl command-line wrapper (src/main.rs) against its
natural-language specification.  Rust strings are modelled as `List Char`
(one entry per Unicode scalar value); `String` wrappers mirror the Rust
signatures.  The external tool's probed version appears as a pair of
natural numbers `(major, minor)`, exactly as `get_curl_version` returns it.
-/

set_option maxHeartbeats 1000000

namespace Wcurl

/-- Worker for `encode_whitespace` (src/main.rs 129-131):
`url.replace(' ', "%20")` replaces every space character by the three
characters `%20` and leaves every other character in place. -/
def encode_whitespace_chars : List Char → List Char
  | [] => []
  | c :: t =>
    if c = ' ' then '%' :: '2' :: '0' :: encode_whitespace_chars t
    else c :: encode_whitespace_chars t

/-- `encode_whitespace` of src/main.rs 129-131. -/
def encode_whitespace (s : String) : String := ⟨encode_whitespace_chars s.data⟩

/-- Number of space characters in a list of characters. -/
def count_spaces : List Char → Nat
  | [] => 0
  | c :: t => (if c = ' ' then 1 else 0) + count_spaces t

/-- Number of positions at which the three-character pattern `%20` occurs. -/
def count_pct20 : List Char → Nat
  | [] => 0
  | c :: t => (if c = '%' ∧ t.take 2 = ['2', '0'] then 1 else 0) + count_pct20 t

/-- Value of one hexadecimal digit, as `u8::from_str_radix(_, 16)` accepts
them (digits, lower-case a-f, upper-case A-F); comparisons are on the
character's scalar value. -/
def hex_digit_val (c : Char) : Option Nat :=
  if 48 ≤ c.toNat ∧ c.toNat ≤ 57 then some (c.toNat - 48)
  else if 97 ≤ c.toNat ∧ c.toNat ≤ 102 then some (c.toNat - 87)
  else if 65 ≤ c.toNat ∧ c.toNat ≤ 70 then some (c.toNat - 55)
  else none

/-- `u8::from_str_radix(hex_str, 16)` on the two-character string `h1 h2`
(src/main.rs 190).  Besides two hex digits, `from_str_radix` also accepts a
leading `+` sign followed by one hex digit; that case yields a value below
16, which the caller then refuses to decode (byte < 0x20), so it produces
the same output as a parse failure, but it is modelled faithfully here. -/
def hex_pair_val (h1 h2 : Char) : Option Nat :=
  match hex_digit_val h1, hex_digit_val h2 with
  | some a, some b => some (16 * a + b)
  | _, _ => if h1 = '+' then hex_digit_val h2 else none

/-- ASCII upper-casing of one character, as `str::to_uppercase` acts on the
characters this program feeds it (hex digits and sign characters). -/
def upper_char (c : Char) : Char :=
  if 97 ≤ c.toNat ∧ c.toNat ≤ 122 then Char.ofNat (c.toNat - 32) else c

/-- `is_unsafe_percent_encode` (src/main.rs 214-217): the upper-cased
two-character hex string equals `2F` or `5C`. -/
def is_excluded_percent_encode (h1 h2 : Char) : Prop :=
  (upper_char h1 = '2' ∧ upper_char h2 = 'F') ∨
  (upper_char h1 = '5' ∧ upper_char h2 = 'C')

instance (h1 h2 : Char) : Decidable (is_excluded_percent_encode h1 h2) := by
  unfold is_excluded_percent_encode; infer_instance

/-- Worker for `percent_decode` (src/main.rs 179-212).  On `%` the scanner
takes the next two characters from the iterator (they stay consumed in
every branch); a valid pair whose byte is at least 0x20 and not the `/` or
`\` code is decoded (`byte as char`), anything else is emitted verbatim. -/
def percent_decode_chars : List Char → List Char
  | [] => []
  | c :: rest =>
    if c = '%' then
      match rest with
      | h1 :: h2 :: rest2 =>
        match hex_pair_val h1 h2 with
        | some byte =>
          if 32 ≤ byte ∧ ¬ is_excluded_percent_encode h1 h2 then
            Char.ofNat byte :: percent_decode_chars rest2
          else '%' :: h1 :: h2 :: percent_decode_chars rest2
        | none => '%' :: h1 :: h2 :: percent_decode_chars rest2
      | [h1] => ['%', h1]
      | [] => ['%']
    else c :: percent_decode_chars rest

/-- `percent_decode` of src/main.rs 179-212. -/
def percent_decode (s : String) : String := ⟨percent_decode_chars s.data⟩

/-- Locator for `url.split("//")` (src/main.rs 163): the characters after
the first occurrence of `//`, or `none` when `//` does not occur. -/
def drop_to_dslash : List Char → Option (List Char)
  | [] => none
  | '/' :: '/' :: t => some t
  | _ :: t => drop_to_dslash t

/-- The characters before the next occurrence of `//` (the whole list when
`//` does not occur): together with `drop_to_dslash` this is the second
element of `url.split("//")`. -/
def up_to_dslash : List Char → List Char
  | [] => []
  | '/' :: '/' :: _ => []
  | c :: t => c :: up_to_dslash t

/-- Worker for `get_url_filename` (src/main.rs 162-177):
`url.split("//").nth(1).unwrap_or(url)`, then `split('?').next()`, then the
text after the last `/` (via `rfind`); an empty segment, or no `/` at all,
falls back to `index.html`. -/
def get_url_filename_chars (url : List Char) (decode : Bool) : List Char :=
  let url_without_protocol :=
    match drop_to_dslash url with
    | none => url
    | some r => up_to_dslash r
  let url_without_query := url_without_protocol.takeWhile (fun c => c != '?')
  if '/' ∈ url_without_query then
    let filename := (url_without_query.reverse.takeWhile (fun c => c != '/')).reverse
    if filename ≠ [] then
      if decode then percent_decode_chars filename else filename
    else "index.html".data
  else "index.html".data

/-- `get_url_filename` of src/main.rs 162-177. -/
def get_url_filename (url : String) (decode : Bool) : String :=
  ⟨get_url_filename_chars url.data decode⟩

/-- The characters after the first occurrence of `://` (`none` when `://`
does not occur); used by the claimed reference algorithm for filename
derivation. -/
def drop_to_scheme : List Char → Option (List Char)
  | [] => none
  | ':' :: '/' :: '/' :: t => some t
  | _ :: t => drop_to_scheme t

/-- Reference algorithm stated by claim C2: drop the text up to and
including the first `://` if present; cut the remainder at the first `?`
or `#`; take the substring after the last `/` in what remains (per the
spec's own examples, a remainder with no `/` yields the fallback); an
empty substring yields `index.html`, otherwise the decode flag selects
percent-decoding. -/
def spec_filename_orig (url : List Char) (decode : Bool) : List Char :=
  let p := (drop_to_scheme url).getD url
  let q := p.takeWhile (fun c => c != '?' && c != '#')
  if '/' ∈ q then
    let f := (q.reverse.takeWhile (fun c => c != '/')).reverse
    if f ≠ [] then
      if decode then percent_decode_chars f else f
    else "index.html".data
  else "index.html".data

/-- Index of the first occurrence of `//`, used by the amended reference
algorithm for filename derivation. -/
def find_dslash : List Char → Option Nat
  | [] => none
  | '/' :: '/' :: _ => some 0
  | _ :: t => (find_dslash t).map (· + 1)

/-- Amended reference: the second piece of the URL split on `//` — the
text strictly between the first `//` and the next `//` (or the end), or
the whole URL when `//` does not occur. -/
def spec_second_piece (url : List Char) : List Char :=
  match find_dslash url with
  | none => url
  | some i =>
    let r := url.drop (i + 2)
    match find_dslash r with
    | none => r
    | some j => r.take j

/-- Amended reference: the text before the first `?` (a `#` is not a
delimiter). -/
def up_to_qmark : List Char → List Char
  | [] => []
  | '?' :: _ => []
  | c :: t => c :: up_to_qmark t

/-- Reference algorithm of claim C2 as amended: take the second piece of
the URL split on `//` (the whole URL when `//` is absent), cut it at the
first `?` only (fragments are not removed), then take the substring after
the last `/`; when that substring is empty, or the piece has no `/` at
all, return `index.html`, otherwise percent-decode it exactly when the
decode flag is set. -/
def spec_filename_amended (url : List Char) (decode : Bool) : List Char :=
  let q := up_to_qmark (spec_second_piece url)
  if '/' ∈ q then
    let f := (q.reverse.takeWhile (fun c => c != '/')).reverse
    if f ≠ [] then
      if decode then percent_decode_chars f else f
    else "index.html".data
  else "index.html".data

/-- `Config` of src/main.rs 7-27. -/
structure Config where
  curl_options : List String
  urls : List String
  output_path : Option String
  has_user_set_output : Bool
  decode_filename : Bool
  dry_run : Bool
deriving DecidableEq

/-- `Config::new` of src/main.rs 16-27. -/
def Config.new : Config :=
  { curl_options := [], urls := [], output_path := none,
    has_user_set_output := false, decode_filename := true, dry_run := false }

/-- Outcome of `parse_args` (src/main.rs 51-127): a configuration, an
error string, or one of the two immediate process exits (`-h`, `-V`). -/
inductive ParseResult where
  | ok : Config → ParseResult
  | err : String → ParseResult
  | exitHelp : ParseResult
  | exitVersion : ParseResult
deriving DecidableEq

/-- First argument read as an initial segment of the second
(`str::starts_with` on character lists). -/
def begins_with : List Char → List Char → Bool
  | [], _ => true
  | _ :: _, [] => false
  | p :: ps, c :: cs => p == c && begins_with ps cs

/-- `arg.starts_with(p)`; the patterns used by the program are ASCII, so
character comparison coincides with the byte comparison done in Rust. -/
def str_starts_with (s p : String) : Bool := begins_with p.data s.data

/-- `&arg[n..]` for the ASCII-prefixed options of this program: dropping
`n` characters coincides with dropping `n` bytes. -/
def str_drop (s : String) (n : Nat) : String := ⟨s.data.drop n⟩

/-- The scanning loop of `parse_args` (src/main.rs 56-120), with the
mutable `config` and `reading_urls` carried explicitly.  Branches appear
in source order. -/
def parse_loop : List String → Config → Bool → ParseResult
  | [], cfg, _ =>
    if cfg.urls = [] then
      ParseResult.err "You must provide at least one URL to download."
    else ParseResult.ok cfg
  | arg :: rest, cfg, readingUrls =>
    if readingUrls then
      parse_loop rest { cfg with urls := cfg.urls ++ [encode_whitespace arg] } true
    else if arg = "-h" ∨ arg = "--help" then ParseResult.exitHelp
    else if arg = "-V" ∨ arg = "--version" then ParseResult.exitVersion
    else if arg = "--dry-run" then
      parse_loop rest { cfg with dry_run := true } readingUrls
    else if arg = "--no-decode-filename" then
      parse_loop rest { cfg with decode_filename := false } readingUrls
    else if arg = "--curl-options" then
      match rest with
      | [] => ParseResult.err "--curl-options requires an argument"
      | v :: rest2 =>
        parse_loop rest2 { cfg with curl_options := cfg.curl_options ++ [v] } readingUrls
    else if arg = "-o" ∨ arg = "-O" ∨ arg = "--output" then
      match rest with
      | [] => ParseResult.err (arg ++ " requires an argument")
      | v :: rest2 =>
        parse_loop rest2
          { cfg with has_user_set_output := true, output_path := some v } readingUrls
    else if arg = "--" then parse_loop rest cfg true
    else if str_starts_with arg "--curl-options=" then
      parse_loop rest
        { cfg with curl_options := cfg.curl_options ++ [str_drop arg 15] } readingUrls
    else if str_starts_with arg "--output=" then
      parse_loop rest
        { cfg with has_user_set_output := true,
                   output_path := some (str_drop arg 9) } readingUrls
    else if str_starts_with arg "-o" ∨ str_starts_with arg "-O" then
      parse_loop rest
        { cfg with has_user_set_output := true,
                   output_path := some (str_drop arg 2) } readingUrls
    else if str_starts_with arg "-" then
      ParseResult.err ("Unknown option: '" ++ arg ++ "'")
    else
      parse_loop rest { cfg with urls := cfg.urls ++ [encode_whitespace arg] } readingUrls

/-- `parse_args` of src/main.rs 51-127.  The Rust function receives the
whole argv vector and starts at index 1; here `args` is the token list
after the program name. -/
def parse_args (args : List String) : ParseResult := parse_loop args Config.new false

/-- The output-option projection of the same scanning grammar: the value
of the last occurrence of the output option, each later occurrence
overwriting any prior value (claim C8's reference).  Branches mirror
`parse_loop` token for token; branches on which `parse_loop` never
returns a configuration keep the accumulator unchanged. -/
def last_output_loop : List String → Option String → Bool → Option String
  | [], acc, _ => acc
  | arg :: rest, acc, readingUrls =>
    if readingUrls then last_output_loop rest acc true
    else if arg = "-h" ∨ arg = "--help" then acc
    else if arg = "-V" ∨ arg = "--version" then acc
    else if arg = "--dry-run" then last_output_loop rest acc readingUrls
    else if arg = "--no-decode-filename" then last_output_loop rest acc readingUrls
    else if arg = "--curl-options" then
      match rest with
      | [] => acc
      | _ :: rest2 => last_output_loop rest2 acc readingUrls
    else if arg = "-o" ∨ arg = "-O" ∨ arg = "--output" then
      match rest with
      | [] => acc
      | v :: rest2 => last_output_loop rest2 (some v) readingUrls
    else if arg = "--" then last_output_loop rest acc true
    else if str_starts_with arg "--curl-options=" then
      last_output_loop rest acc readingUrls
    else if str_starts_with arg "--output=" then
      last_output_loop rest (some (str_drop arg 9)) readingUrls
    else if str_starts_with arg "-o" ∨ str_starts_with arg "-O" then
      last_output_loop rest (some (str_drop arg 2)) readingUrls
    else if str_starts_with arg "-" then acc
    else last_output_loop rest acc readingUrls

/-- The fixed per-URL parameter block of `exec_curl` (src/main.rs 235-242). -/
def per_url_params : List String :=
  ["--fail", "--globoff", "--location", "--proto-default", "https",
   "--remote-time", "--retry", "5"]

/-- The output destination chosen for one URL (src/main.rs 259-263). -/
def output_for (cfg : Config) (url : String) : String :=
  if cfg.has_user_set_output then cfg.output_path.getD "index.html"
  else get_url_filename url cfg.decode_filename

/-- The arguments pushed for one URL inside the loop of `exec_curl`
(src/main.rs 251-272), without the leading `--next` separator. -/
def url_block (cfg : Config) (use_no_clobber : Bool) (url : String) : List String :=
  per_url_params ++ (if use_no_clobber then ["--no-clobber"] else [])
    ++ ("--output" :: output_for cfg url :: cfg.curl_options) ++ [url]

/-- The whole per-URL portion of the argument list (src/main.rs 246-273):
`--next` precedes every block except the first. -/
def url_blocks (cfg : Config) (use_no_clobber : Bool) : List String :=
  match cfg.urls with
  | [] => []
  | u :: rest =>
    url_block cfg use_no_clobber u
      ++ rest.flatMap (fun v => "--next" :: url_block cfg use_no_clobber v)

/-- The argument list `curl_args` assembled by `exec_curl`
(src/main.rs 219-273) from the configuration and the probed
`(major, minor)` version. -/
def build_curl_args (cfg : Config) (major minor : Nat) : List String :=
  (if 2 ≤ cfg.urls.length then
    if 8 ≤ major ∨ (major = 7 ∧ 66 ≤ minor) then
      "--parallel" ::
        (if 8 ≤ major ∧ 16 ≤ minor then ["--parallel-max-host", "5"] else [])
    else []
  else [])
  ++ url_blocks cfg (decide (8 ≤ major ∨ (major = 7 ∧ 83 ≤ minor)))

theorem encode_no_space (l : List Char) :
    count_spaces (encode_whitespace_chars l) = 0 := by
  induction l with
  | nil => rfl
  | cons c t ih =>
    by_cases h : c = ' ' <;>
      simp [encode_whitespace_chars, count_spaces, h, ih]

theorem encode_of_no_space (l : List Char) (h : count_spaces l = 0) :
    encode_whitespace_chars l = l := by
  induction l with
  | nil => rfl
  | cons c t ih =>
    by_cases hc : c = ' '
    · rw [count_spaces, if_pos hc] at h; omega
    · rw [count_spaces, if_neg hc, Nat.zero_add] at h
      simp [encode_whitespace_chars, hc, ih h]

theorem encode_take2 (t : List Char) :
    (encode_whitespace_chars t).take 2 = ['2', '0'] ↔ t.take 2 = ['2', '0'] := by
  match t with
  | [] => simp [encode_whitespace_chars]
  | [a] =>
    by_cases ha : a = ' ' <;>
      simp [encode_whitespace_chars, ha]
  | a :: b :: t' =>
    by_cases ha : a = ' '
    · simp [encode_whitespace_chars, ha]
    · by_cases hb : b = ' ' <;>
        simp [encode_whitespace_chars, ha, hb]

theorem count_pct20_encode (l : List Char) :
    count_pct20 (encode_whitespace_chars l) = count_pct20 l + count_spaces l := by
  induction l with
  | nil => rfl
  | cons c t ih =>
    by_cases hc : c = ' '
    · simp [encode_whitespace_chars, count_pct20, count_spaces, hc, ih]
      omega
    · simp [encode_whitespace_chars, count_pct20, count_spaces, hc, ih, encode_take2]
      omega

theorem encode_eq_flatMap (l : List Char) :
    encode_whitespace_chars l =
      l.flatMap (fun c => if c = ' ' then ['%', '2', '0'] else [c]) := by
  induction l with
  | nil => rfl
  | cons c t ih =>
    by_cases hc : c = ' ' <;> simp [encode_whitespace_chars, hc, ih]

/-- C9: whitespace-encoding is idempotent: a first application leaves no
literal space, and on a space-free input the encoder is the identity, so a
second application changes nothing. -/
theorem C9_encode_idempotent (s : String) :
    encode_whitespace (encode_whitespace s) = encode_whitespace s := by
  unfold encode_whitespace
  exact congrArg String.mk (encode_of_no_space _ (encode_no_space s.data))

/-- C4 as amended: encoding a URL with N spaces yields exactly N more
occurrences of `%20` than the input already contains (not exactly N, as
the original claim said), zero literal spaces, and each character other
than a space is kept unchanged in place. -/
theorem C4_encode_counts (l : List Char) :
    count_pct20 (encode_whitespace_chars l) = count_pct20 l + count_spaces l ∧
    count_spaces (encode_whitespace_chars l) = 0 ∧
    encode_whitespace_chars l =
      l.flatMap (fun c => if c = ' ' then ['%', '2', '0'] else [c]) :=
  ⟨count_pct20_encode l, encode_no_space l, encode_eq_flatMap l⟩

/-- C4 fails as stated on the input `%20`, which contains zero spaces but
whose encoding (the input itself) contains one occurrence of `%20`. -/
theorem C4_counterexample :
    count_pct20 (encode_whitespace_chars ['%', '2', '0']) ≠
      count_spaces ['%', '2', '0'] := by decide

/-- C1 is stated for the code, but the code adds the per-host cap only
when `major >= 8 && minor >= 16`: with two URLs and probed version 9.0 the
pair `--parallel-max-host 5` is absent (while `--parallel` is present and
version 8.16 does get the cap), contradicting "every probed version with
major >= 9 gets the cap". -/
theorem C1_cap_gate_bug :
    "--parallel-max-host" ∉
      build_curl_args
        { curl_options := [], urls := ["http://a/x", "http://b/y"],
          output_path := none, has_user_set_output := false,
          decode_filename := true, dry_run := false } 9 0 ∧
    "--parallel" ∈
      build_curl_args
        { curl_options := [], urls := ["http://a/x", "http://b/y"],
          output_path := none, has_user_set_output := false,
          decode_filename := true, dry_run := false } 9 0 ∧
    "--parallel-max-host" ∈
      build_curl_args
        { curl_options := [], urls := ["http://a/x", "http://b/y"],
          output_path := none, has_user_set_output := false,
          decode_filename := true, dry_run := false } 8 16 := by decide

/-- C2 fails as stated: the code never treats `#` as a delimiter, so for
`http://e/a#b` the derived filename is `a#b` — the fragment appears in the
filename — while the claimed reference algorithm yields `a`. -/
theorem C2_counterexample :
    get_url_filename_chars "http://e/a#b".data false ≠
      spec_filename_orig "http://e/a#b".data false ∧
    '#' ∈ get_url_filename_chars "http://e/a#b".data false := by decide

/-- C3 fails as stated: decoding `%%41` does not re-scan the two consumed
characters, so the result is `%%41`, not the claimed `%A`. -/
theorem C3_counterexample :
    percent_decode_chars ['%', '%', '4', '1'] = ['%', '%', '4', '1'] ∧
    percent_decode_chars ['%', '%', '4', '1'] ≠ ['%', 'A'] := by decide

theorem up_to_qmark_eq (l : List Char) :
    up_to_qmark l = l.takeWhile (fun c => c != '?') := by
  induction l using up_to_qmark.induct with
  | case1 => rfl
  | case2 t => simp [up_to_qmark, List.takeWhile]
  | case3 c t hc ih =>
    simp [up_to_qmark, List.takeWhile, ih, bne_iff_ne.mpr hc]

theorem drop_to_dslash_eq (l : List Char) :
    drop_to_dslash l = (find_dslash l).map (fun i => l.drop (i + 2)) := by
  induction l using find_dslash.induct with
  | case1 => rfl
  | case2 t => simp [drop_to_dslash, find_dslash]
  | case3 c t h ih =>
    rw [drop_to_dslash.eq_3 c t h, find_dslash.eq_3 c t h, ih]
    cases hf : find_dslash t with
    | none => rfl
    | some i => simp

theorem up_to_dslash_eq (l : List Char) :
    up_to_dslash l = l.take ((find_dslash l).getD l.length) := by
  induction l using find_dslash.induct with
  | case1 => rfl
  | case2 t => simp [up_to_dslash, find_dslash]
  | case3 c t h ih =>
    rw [up_to_dslash.eq_3 c t h, find_dslash.eq_3 c t h, ih]
    cases hf : find_dslash t with
    | none => simp
    | some i => simp

theorem spec_second_piece_eq (url : List Char) :
    (match drop_to_dslash url with
     | none => url
     | some r => up_to_dslash r) = spec_second_piece url := by
  unfold spec_second_piece
  rw [drop_to_dslash_eq]
  cases hf : find_dslash url with
  | none => rfl
  | some i =>
    simp only [Option.map_some']
    rw [up_to_dslash_eq]
    cases hg : find_dslash (url.drop (i + 2)) with
    | none => simp
    | some j => simp

/-- C2 as amended: the derived filename equals the reference algorithm in
which the scheme-stripping step keeps the text between the first `//` and
the next `//` (or the end) — the whole URL when `//` is absent — and the
remainder is cut at the first `?` only, a `#` fragment not being a
delimiter (it can appear in the derived filename); the rest of the claimed
algorithm (substring after the last `/`, `index.html` fallback, optional
percent-decoding) is unchanged. -/
theorem C2_filename_amended (url : List Char) (decode : Bool) :
    get_url_filename_chars url decode = spec_filename_amended url decode := by
  simp only [get_url_filename_chars, spec_filename_amended]
  rw [up_to_qmark_eq, spec_second_piece_eq]

theorem percent_decode_escape (h1 h2 : Char) (rest : List Char) :
    percent_decode_chars ('%' :: h1 :: h2 :: rest) =
      match hex_pair_val h1 h2 with
      | some byte =>
        if 32 ≤ byte ∧ ¬ is_excluded_percent_encode h1 h2 then
          Char.ofNat byte :: percent_decode_chars rest
        else '%' :: h1 :: h2 :: percent_decode_chars rest
      | none => '%' :: h1 :: h2 :: percent_decode_chars rest := rfl

theorem percent_decode_one : percent_decode_chars ['%'] = ['%'] := rfl

theorem percent_decode_two (h1 : Char) :
    percent_decode_chars ['%', h1] = ['%', h1] := rfl

theorem percent_decode_cons_other (c : Char) (rest : List Char) (hc : c ≠ '%') :
    percent_decode_chars (c :: rest) = c :: percent_decode_chars rest := by
  conv_lhs => rw [percent_decode_chars.eq_def]
  simp only [if_neg hc]

theorem percent_decode_step_some (h1 h2 : Char) (rest : List Char) (byte : Nat)
    (hp : hex_pair_val h1 h2 = some byte) :
    percent_decode_chars ('%' :: h1 :: h2 :: rest) =
      if 32 ≤ byte ∧ ¬ is_excluded_percent_encode h1 h2 then
        Char.ofNat byte :: percent_decode_chars rest
      else '%' :: h1 :: h2 :: percent_decode_chars rest := by
  rw [percent_decode_escape, hp]

theorem percent_decode_step_none (h1 h2 : Char) (rest : List Char)
    (hp : hex_pair_val h1 h2 = none) :
    percent_decode_chars ('%' :: h1 :: h2 :: rest) =
      '%' :: h1 :: h2 :: percent_decode_chars rest := by
  rw [percent_decode_escape, hp]

theorem toNat_ofNat_of_valid {m : Nat} (h : m.isValidChar) :
    (Char.ofNat m).toNat = m := by
  simp [Char.ofNat, h, Char.ofNatAux, Char.toNat, UInt32.toNat]

theorem char_toNat_inj {a b : Char} (h : a.toNat = b.toNat) : a = b := by
  have hab := Char.ofNat_toNat a
  rw [h, Char.ofNat_toNat b] at hab
  exact hab.symm

theorem upper_char_cases {c d : Char} (h : upper_char c = d) (_hd : d.toNat < 97) :
    c = d ∨ (97 ≤ c.toNat ∧ c.toNat ≤ 122 ∧ c.toNat = d.toNat + 32) := by
  unfold upper_char at h
  split at h
  case isTrue hl =>
    right
    have hv : (c.toNat - 32).isValidChar := Or.inl (by omega)
    have hn := congrArg Char.toNat h
    rw [toNat_ofNat_of_valid hv] at hn
    exact ⟨hl.1, hl.2, by omega⟩
  case isFalse hl => exact Or.inl h

theorem excluded_iff (h1 h2 : Char) :
    is_excluded_percent_encode h1 h2 ↔
      ((h1 = '2' ∧ (h2 = 'F' ∨ h2 = 'f')) ∨ (h1 = '5' ∧ (h2 = 'C' ∨ h2 = 'c'))) := by
  constructor
  · rintro (⟨ha, hb⟩ | ⟨ha, hb⟩)
    · rcases upper_char_cases ha (by decide) with h | ⟨hc1, _, hc2⟩
      · refine Or.inl ⟨h, ?_⟩
        rcases upper_char_cases hb (by decide) with h' | ⟨_, _, hn⟩
        · exact Or.inl h'
        · exact Or.inr (char_toNat_inj (by rw [hn]; decide))
      · have hv : ('2' : Char).toNat = 50 := by decide
        omega
    · rcases upper_char_cases ha (by decide) with h | ⟨hc1, _, hc2⟩
      · refine Or.inr ⟨h, ?_⟩
        rcases upper_char_cases hb (by decide) with h' | ⟨_, _, hn⟩
        · exact Or.inl h'
        · exact Or.inr (char_toNat_inj (by rw [hn]; decide))
      · have hv : ('5' : Char).toNat = 53 := by decide
        omega
  · rintro (⟨rfl, rfl | rfl⟩ | ⟨rfl, rfl | rfl⟩) <;> decide

theorem hex_digit_val_lt {c : Char} {a : Nat} (h : hex_digit_val c = some a) :
    a < 16 := by
  unfold hex_digit_val at h
  split_ifs at h <;> simp_all <;> omega

/-- C5: a valid two-hex-digit escape is left verbatim exactly when its byte
is a control character (below 0x20) or the pair case-insensitively spells
`2F` or `5C`; otherwise the decoded byte is emitted; in both cases the
scanner advances past the whole escape. -/
theorem C5_decode_gate (h1 h2 : Char) (a b : Nat) (rest : List Char)
    (ha : hex_digit_val h1 = some a) (hb : hex_digit_val h2 = some b) :
    percent_decode_chars ('%' :: h1 :: h2 :: rest) =
      if 16 * a + b < 32 ∨
          (h1 = '2' ∧ (h2 = 'F' ∨ h2 = 'f')) ∨ (h1 = '5' ∧ (h2 = 'C' ∨ h2 = 'c'))
      then '%' :: h1 :: h2 :: percent_decode_chars rest
      else Char.ofNat (16 * a + b) :: percent_decode_chars rest := by
  have hp : hex_pair_val h1 h2 = some (16 * a + b) := by
    unfold hex_pair_val; rw [ha, hb]
  rw [percent_decode_step_some h1 h2 rest (16 * a + b) hp]
  by_cases hc : 16 * a + b < 32 ∨
      (h1 = '2' ∧ (h2 = 'F' ∨ h2 = 'f')) ∨ (h1 = '5' ∧ (h2 = 'C' ∨ h2 = 'c'))
  · rw [if_pos hc, if_neg]
    rintro ⟨hge, hnex⟩
    rcases hc with hlt | hch
    · omega
    · exact hnex ((excluded_iff h1 h2).mpr hch)
  · rw [if_neg hc, if_pos]
    refine ⟨?_, fun hex => hc (Or.inr ((excluded_iff h1 h2).mp hex))⟩
    by_contra hlt
    exact hc (Or.inl (by omega))

/-- C5 witness at the concrete escapes `%41` and `%2f`. -/
theorem C5_witness :
    percent_decode_chars ['%', '4', '1'] = ['A'] ∧
    percent_decode_chars ['%', '2', 'f'] = ['%', '2', 'f'] := by
  constructor
  · have h := C5_decode_gate '4' '1' 4 1 [] (by decide) (by decide)
    rw [if_neg (by decide)] at h
    exact h.trans (by decide)
  · have h := C5_decode_gate '2' 'f' 2 15 [] (by decide) (by decide)
    rw [if_pos (by decide)] at h
    exact h.trans (by decide)

/-- C3 as amended: when `%` is followed by two characters that do not form
a valid hex pair, the scanner emits `%` and both characters verbatim and
advances past all three (the two characters are consumed, not re-scanned);
when fewer than two characters follow, `%` and whatever is available are
emitted and the scan ends. -/
theorem C3_invalid_escape_consumed :
    (∀ (h1 h2 : Char) (rest : List Char),
        hex_digit_val h1 = none ∨ hex_digit_val h2 = none →
        percent_decode_chars ('%' :: h1 :: h2 :: rest) =
          '%' :: h1 :: h2 :: percent_decode_chars rest) ∧
    (∀ h1 : Char, percent_decode_chars ['%', h1] = ['%', h1]) ∧
    percent_decode_chars ['%'] = ['%'] := by
  refine ⟨?_, percent_decode_two, percent_decode_one⟩
  intro h1 h2 rest hinv
  rcases hpv : hex_pair_val h1 h2 with _ | byte
  · exact percent_decode_step_none h1 h2 rest hpv
  · rw [percent_decode_step_some h1 h2 rest byte hpv]
    have hb : byte < 16 := by
      unfold hex_pair_val at hpv
      rcases hd1 : hex_digit_val h1 with _ | a
      · rw [hd1] at hpv
        rcases hd2 : hex_digit_val h2 with _ | b
        · rw [hd2] at hpv; simp at hpv
        · rw [hd2] at hpv
          split_ifs at hpv with hplus
          obtain rfl : b = byte := by simpa using hpv
          exact hex_digit_val_lt hd2
      · rcases hinv with h | h
        · rw [hd1] at h; simp at h
        · rw [hd1, h] at hpv; simp at hpv
    rw [if_neg]
    rintro ⟨hge, -⟩
    omega

/-- C3 amended witness at the concrete escape `%zz`. -/
theorem C3_witness :
    percent_decode_chars ['%', 'z', 'z', 'a'] = ['%', 'z', 'z', 'a'] := by
  have h := C3_invalid_escape_consumed.1 'z' 'z' ['a'] (Or.inl (by decide))
  exact h.trans (by decide)

theorem percent_decode_chars_ne_nil {l : List Char} (h : l ≠ []) :
    percent_decode_chars l ≠ [] := by
  match l with
  | [] => exact absurd rfl h
  | c :: rest =>
    by_cases hc : c = '%'
    · subst hc
      match rest with
      | h1 :: h2 :: rest2 =>
        rcases hpv : hex_pair_val h1 h2 with _ | byte
        · rw [percent_decode_step_none h1 h2 rest2 hpv]; simp
        · rw [percent_decode_step_some h1 h2 rest2 byte hpv]
          split <;> simp
      | [h1] => rw [percent_decode_two]; simp
      | [] => rw [percent_decode_one]; simp
    · rw [percent_decode_cons_other c rest hc]; simp

/-- C10: the derived filename is never empty — the deriver returns either
the literal `index.html` or a non-empty segment, and the percent-decoder
maps non-empty inputs to non-empty outputs. -/
theorem C10_filename_nonempty (url : List Char) (decode : Bool) (l : List Char) :
    get_url_filename_chars url decode ≠ [] ∧
    (l ≠ [] → percent_decode_chars l ≠ []) := by
  refine ⟨?_, percent_decode_chars_ne_nil⟩
  simp only [get_url_filename_chars]
  split
  · split
    · split
      · next hf _ => exact percent_decode_chars_ne_nil hf
      · next hf _ => exact hf
    · decide
  · decide

theorem parallel_not_in_block (cfg : Config) (nc : Bool) (u : String)
    (h1 : u ≠ "--parallel") (h2 : output_for cfg u ≠ "--parallel")
    (h3 : "--parallel" ∉ cfg.curl_options) :
    "--parallel" ∉ url_block cfg nc u := by
  intro hmem
  cases nc <;>
    simp only [url_block, per_url_params, List.mem_append, List.mem_cons,
      List.mem_singleton, List.not_mem_nil, if_true, if_false,
      List.append_nil, List.nil_append] at hmem <;>
    rcases hmem with h | h <;> simp_all

theorem parallel_not_in_blocks (cfg : Config) (nc : Bool)
    (hopt : "--parallel" ∉ cfg.curl_options)
    (hurl : ∀ u ∈ cfg.urls, u ≠ "--parallel")
    (hout : ∀ u ∈ cfg.urls, output_for cfg u ≠ "--parallel") :
    "--parallel" ∉ url_blocks cfg nc := by
  intro hmem
  unfold url_blocks at hmem
  rcases hu : cfg.urls with _ | ⟨u, rest⟩ <;> rw [hu] at hmem
  · simp at hmem
  · rcases List.mem_append.mp hmem with h | h
    · exact parallel_not_in_block cfg nc u
        (hurl u (by rw [hu]; exact List.mem_cons_self u rest))
        (hout u (by rw [hu]; exact List.mem_cons_self u rest)) hopt h
    · rcases List.mem_flatMap.mp h with ⟨v, hv, hvm⟩
      rcases List.mem_cons.mp hvm with heq | hvm'
      · exact absurd heq (by decide)
      · exact parallel_not_in_block cfg nc v
          (hurl v (by rw [hu]; exact List.mem_cons_of_mem u hv))
          (hout v (by rw [hu]; exact List.mem_cons_of_mem u hv)) hopt hvm'

/-- C6: the assembled argument list contains `--parallel` exactly when the
configuration holds two or more URLs and the probed version is at least
7.66 (major at least 8, or major 7 with minor at least 66); the
hypotheses rule out the user smuggling the literal string `--parallel` in
as an option value, a URL, or an output filename. -/
theorem C6_parallel_iff (cfg : Config) (major minor : Nat)
    (hopt : "--parallel" ∉ cfg.curl_options)
    (hurl : ∀ u ∈ cfg.urls, u ≠ "--parallel")
    (hout : ∀ u ∈ cfg.urls, output_for cfg u ≠ "--parallel") :
    "--parallel" ∈ build_curl_args cfg major minor ↔
      2 ≤ cfg.urls.length ∧ (8 ≤ major ∨ (major = 7 ∧ 66 ≤ minor)) := by
  have hb := parallel_not_in_blocks cfg
    (decide (8 ≤ major ∨ (major = 7 ∧ 83 ≤ minor))) hopt hurl hout
  unfold build_curl_args
  rw [List.mem_append]
  constructor
  · rintro (h | h)
    · split_ifs at h with hlen hver hcap
      · exact ⟨hlen, hver⟩
      · exact ⟨hlen, hver⟩
      · simp at h
      · simp at h
    · exact absurd h hb
  · rintro ⟨hlen, hver⟩
    left
    rw [if_pos hlen, if_pos hver]
    exact List.mem_cons_self _ _

/-- C6 witness: two URLs at probed version 7.66 do get `--parallel`. -/
theorem C6_witness :
    "--parallel" ∈
      build_curl_args
        { curl_options := [], urls := ["http://a/x", "http://b/y"],
          output_path := none, has_user_set_output := false,
          decode_filename := true, dry_run := false } 7 66 :=
  (C6_parallel_iff
    { curl_options := [], urls := ["http://a/x", "http://b/y"],
      output_path := none, has_user_set_output := false,
      decode_filename := true, dry_run := false } 7 66
    (by decide) (by decide) (by decide)).mpr (by decide)

/-- C10 witness at a concrete URL and segment. -/
theorem C10_witness :
    get_url_filename_chars "http://e/a%41".data true ≠ [] ∧
    percent_decode_chars ['%'] ≠ [] :=
  ⟨(C10_filename_nonempty "http://e/a%41".data true ['%']).1,
   (C10_filename_nonempty "http://e/a%41".data true ['%']).2 (by decide)⟩

theorem parse_loop_nil (cfg : Config) (ru : Bool) :
    parse_loop [] cfg ru =
      (if cfg.urls = [] then
        ParseResult.err "You must provide at least one URL to download."
      else ParseResult.ok cfg) := by rw [parse_loop.eq_def]

theorem parse_loop_cons (arg : String) (rest : List String) (cfg : Config) (ru : Bool) :
    parse_loop (arg :: rest) cfg ru =
      (if ru then
        parse_loop rest { cfg with urls := cfg.urls ++ [encode_whitespace arg] } true
      else if arg = "-h" ∨ arg = "--help" then ParseResult.exitHelp
      else if arg = "-V" ∨ arg = "--version" then ParseResult.exitVersion
      else if arg = "--dry-run" then
        parse_loop rest { cfg with dry_run := true } ru
      else if arg = "--no-decode-filename" then
        parse_loop rest { cfg with decode_filename := false } ru
      else if arg = "--curl-options" then
        match rest with
        | [] => ParseResult.err "--curl-options requires an argument"
        | v :: rest2 =>
          parse_loop rest2 { cfg with curl_options := cfg.curl_options ++ [v] } ru
      else if arg = "-o" ∨ arg = "-O" ∨ arg = "--output" then
        match rest with
        | [] => ParseResult.err (arg ++ " requires an argument")
        | v :: rest2 =>
          parse_loop rest2
            { cfg with has_user_set_output := true, output_path := some v } ru
      else if arg = "--" then parse_loop rest cfg true
      else if str_starts_with arg "--curl-options=" then
        parse_loop rest
          { cfg with curl_options := cfg.curl_options ++ [str_drop arg 15] } ru
      else if str_starts_with arg "--output=" then
        parse_loop rest
          { cfg with has_user_set_output := true,
                     output_path := some (str_drop arg 9) } ru
      else if str_starts_with arg "-o" ∨ str_starts_with arg "-O" then
        parse_loop rest
          { cfg with has_user_set_output := true,
                     output_path := some (str_drop arg 2) } ru
      else if str_starts_with arg "-" then
        ParseResult.err ("Unknown option: '" ++ arg ++ "'")
      else
        parse_loop rest { cfg with urls := cfg.urls ++ [encode_whitespace arg] } ru) := by
  rw [parse_loop.eq_def]

theorem last_output_loop_cons (arg : String) (rest : List String)
    (acc : Option String) (ru : Bool) :
    last_output_loop (arg :: rest) acc ru =
      (if ru then last_output_loop rest acc true
      else if arg = "-h" ∨ arg = "--help" then acc
      else if arg = "-V" ∨ arg = "--version" then acc
      else if arg = "--dry-run" then last_output_loop rest acc ru
      else if arg = "--no-decode-filename" then last_output_loop rest acc ru
      else if arg = "--curl-options" then
        match rest with
        | [] => acc
        | _ :: rest2 => last_output_loop rest2 acc ru
      else if arg = "-o" ∨ arg = "-O" ∨ arg = "--output" then
        match rest with
        | [] => acc
        | v :: rest2 => last_output_loop rest2 (some v) ru
      else if arg = "--" then last_output_loop rest acc true
      else if str_starts_with arg "--curl-options=" then last_output_loop rest acc ru
      else if str_starts_with arg "--output=" then
        last_output_loop rest (some (str_drop arg 9)) ru
      else if str_starts_with arg "-o" ∨ str_starts_with arg "-O" then
        last_output_loop rest (some (str_drop arg 2)) ru
      else if str_starts_with arg "-" then acc
      else last_output_loop rest acc ru) := by
  rw [last_output_loop.eq_def]

theorem parse_loop_inv :
    ∀ (n : Nat) (args : List String) (cfg : Config) (ru : Bool) (c : Config),
      args.length ≤ n → parse_loop args cfg ru = ParseResult.ok c →
      c.urls ≠ [] ∧ c.output_path = last_output_loop args cfg.output_path ru := by
  intro n
  induction n with
  | zero =>
    intro args cfg ru c hlen h
    have hargs : args = [] := List.eq_nil_of_length_eq_zero (Nat.le_zero.mp hlen)
    subst hargs
    rw [parse_loop_nil] at h
    split at h
    · cases h
    · next hne => cases h; exact ⟨hne, rfl⟩
  | succ n ih =>
    intro args cfg ru c hlen h
    cases args with
    | nil =>
      rw [parse_loop_nil] at h
      split at h
      · cases h
      · next hne => cases h; exact ⟨hne, rfl⟩
    | cons arg rest =>
      rw [List.length_cons] at hlen
      have hlen2 : rest.length ≤ n := by omega
      rw [parse_loop_cons] at h
      rw [last_output_loop_cons]
      by_cases h1 : ru = true
      · rw [if_pos h1] at h; rw [if_pos h1]
        exact ih rest { cfg with urls := cfg.urls ++ [encode_whitespace arg] } true c hlen2 h
      · rw [if_neg h1] at h; rw [if_neg h1]
        by_cases h2 : arg = "-h" ∨ arg = "--help"
        · rw [if_pos h2] at h; cases h
        · rw [if_neg h2] at h; rw [if_neg h2]
          by_cases h3 : arg = "-V" ∨ arg = "--version"
          · rw [if_pos h3] at h; cases h
          · rw [if_neg h3] at h; rw [if_neg h3]
            by_cases h4 : arg = "--dry-run"
            · rw [if_pos h4] at h; rw [if_pos h4]
              exact ih rest { cfg with dry_run := true } ru c hlen2 h
            · rw [if_neg h4] at h; rw [if_neg h4]
              by_cases h5 : arg = "--no-decode-filename"
              · rw [if_pos h5] at h; rw [if_pos h5]
                exact ih rest { cfg with decode_filename := false } ru c hlen2 h
              · rw [if_neg h5] at h; rw [if_neg h5]
                by_cases h6 : arg = "--curl-options"
                · rw [if_pos h6] at h; rw [if_pos h6]
                  cases rest with
                  | nil => cases h
                  | cons v rest2 =>
                    exact ih rest2 { cfg with curl_options := cfg.curl_options ++ [v] } ru c
                      (by rw [List.length_cons] at hlen; omega) h
                · rw [if_neg h6] at h; rw [if_neg h6]
                  by_cases h7 : arg = "-o" ∨ arg = "-O" ∨ arg = "--output"
                  · rw [if_pos h7] at h; rw [if_pos h7]
                    cases rest with
                    | nil => cases h
                    | cons v rest2 =>
                      exact ih rest2
                        { cfg with has_user_set_output := true, output_path := some v } ru c
                        (by rw [List.length_cons] at hlen; omega) h
                  · rw [if_neg h7] at h; rw [if_neg h7]
                    by_cases h8 : arg = "--"
                    · rw [if_pos h8] at h; rw [if_pos h8]
                      exact ih rest cfg true c hlen2 h
                    · rw [if_neg h8] at h; rw [if_neg h8]
                      by_cases h9 : str_starts_with arg "--curl-options=" = true
                      · rw [if_pos h9] at h; rw [if_pos h9]
                        exact ih rest
                          { cfg with curl_options := cfg.curl_options ++ [str_drop arg 15] }
                          ru c hlen2 h
                      · rw [if_neg h9] at h; rw [if_neg h9]
                        by_cases h10 : str_starts_with arg "--output=" = true
                        · rw [if_pos h10] at h; rw [if_pos h10]
                          exact ih rest
                            { cfg with has_user_set_output := true,
                                       output_path := some (str_drop arg 9) } ru c hlen2 h
                        · rw [if_neg h10] at h; rw [if_neg h10]
                          by_cases h11 : str_starts_with arg "-o" = true ∨
                              str_starts_with arg "-O" = true
                          · rw [if_pos h11] at h; rw [if_pos h11]
                            exact ih rest
                              { cfg with has_user_set_output := true,
                                         output_path := some (str_drop arg 2) } ru c hlen2 h
                          · rw [if_neg h11] at h; rw [if_neg h11]
                            by_cases h12 : str_starts_with arg "-" = true
                            · rw [if_pos h12] at h; cases h
                            · rw [if_neg h12] at h; rw [if_neg h12]
                              exact ih rest
                                { cfg with urls := cfg.urls ++ [encode_whitespace arg] }
                                ru c hlen2 h

/-- C7: parsing yields a configuration only with a non-empty URL list; an
argument list that leaves the URL list empty produces an error, never a
configuration. -/
theorem C7_urls_nonempty (args : List String) (c : Config)
    (h : parse_args args = ParseResult.ok c) : c.urls ≠ [] :=
  (parse_loop_inv args.length args Config.new false c le_rfl h).1

/-- C8: the parsed configuration's output path is the value of the last
occurrence of the output option in any of its forms, each later occurrence
overwriting any prior value (`last_output_loop` scans the same grammar
keeping only the latest output value). -/
theorem C8_last_output_wins (args : List String) (c : Config)
    (h : parse_args args = ParseResult.ok c) :
    c.output_path = last_output_loop args none false :=
  (parse_loop_inv args.length args Config.new false c le_rfl h).2

/-- C8 witness: with four output occurrences in different forms the last
one (`-Oc`, glued form) wins. -/
theorem C8_witness :
    ({ curl_options := [], urls := ["http://x"], output_path := some "c",
       has_user_set_output := true, decode_filename := true,
       dry_run := false } : Config).output_path =
      last_output_loop ["-o", "a", "--output=b", "-Oc", "http://x"] none false :=
  C8_last_output_wins ["-o", "a", "--output=b", "-Oc", "http://x"]
    { curl_options := [], urls := ["http://x"], output_path := some "c",
      has_user_set_output := true, decode_filename := true, dry_run := false }
    (by decide)

/-- C7 witness at a concrete one-URL argument list. -/
theorem C7_witness :
    ({ curl_options := [], urls := ["http://a"], output_path := none,
       has_user_set_output := false, decode_filename := true,
       dry_run := false } : Config).urls ≠ [] :=
  C7_urls_nonempty ["http://a"]
    { curl_options := [], urls := ["http://a"], output_path := none,
      has_user_set_output := false, decode_filename := true, dry_run := false }
    (by decide)

end Wcurl

-- Concrete evaluations of the embedding on the test vectors of the specification.
example : Wcurl.encode_whitespace "a b c" = "a%20b%20c" := by decide
example : Wcurl.percent_decode "%41" = "A" := by decide
example : Wcurl.percent_decode "%2F" = "%2F" := by decide
example : Wcurl.percent_decode "%2f" = "%2f" := by decide
example : Wcurl.percent_decode "%1F" = "%1F" := by decide
example : Wcurl.percent_decode "%zz" = "%zz" := by decide
example : Wcurl.percent_decode "%%41" = "%%41" := by decide
example : Wcurl.get_url_filename "https://example.com/path/file.txt?x=1" true = "file.txt" := by decide
example : Wcurl.get_url_filename "https://example.com/" true = "index.html" := by decide
example : Wcurl.get_url_filename "https://example.com" true = "index.html" := by decide
example : Wcurl.get_url_filename "http://e/a#b" false = "a#b" := by decide
example : Wcurl.get_url_filename "a//b//c" false = "index.html" := by decide
example : Wcurl.get_url_filename "a//b/x//c" false = "x" := by decide
example : Wcurl.parse_args ["-o", "out.bin", "http://a", "http://b"] =
    Wcurl.ParseResult.ok
      { curl_options := [], urls := ["http://a", "http://b"],
        output_path := some "out.bin", has_user_set_output := true,
        decode_filename := true, dry_run := false } := by decide
example : Wcurl.parse_args ["--curl-options", "-k", "--curl-options=-v", "http://a"] =
    Wcurl.ParseResult.ok
      { curl_options := ["-k", "-v"], urls := ["http://a"],
        output_path := none, has_user_set_output := false,
        decode_filename := true, dry_run := false } := by decide
example : Wcurl.parse_args ["--", "-o", "x"] =
    Wcurl.ParseResult.ok
      { curl_options := [], urls := ["-o", "x"],
        output_path := none, has_user_set_output := false,
        decode_filename := true, dry_run := false } := by decide
example : Wcurl.parse_args ["-oabc", "http://a"] =
    Wcurl.ParseResult.ok
      { curl_options := [], urls := ["http://a"],
        output_path := some "abc", has_user_set_output := true,
        decode_filename := true, dry_run := false } := by decide
example : Wcurl.parse_args ["--dry-run"] =
    Wcurl.ParseResult.err "You must provide at least one URL to download." := by decide
example : Wcurl.parse_args ["-x"] = Wcurl.ParseResult.err "Unknown option: '-x'" := by decide
example : Wcurl.build_curl_args
    { curl_options := [], urls := ["http://e/f", "http://g/h"],
      output_path := none, has_user_set_output := false,
      decode_filename := true, dry_run := false } 8 16 =
    ["--parallel", "--parallel-max-host", "5",
     "--fail", "--globoff", "--location", "--proto-default", "https",
     "--remote-time", "--retry", "5", "--no-clobber", "--output", "f", "http://e/f",
     "--next",
     "--fail", "--globoff", "--location", "--proto-default", "https",
     "--remote-time", "--retry", "5", "--no-clobber", "--output", "h", "http://g/h"] := by decide
example : "--parallel-max-host" ∉ Wcurl.build_curl_args
    { curl_options := [], urls := ["http://e/f", "http://g/h"],
      output_path := none, has_user_set_output := false,
      decode_filename := true, dry_run := false } 9 0 := by decide
example : Wcurl.spec_filename_orig "http://e/a#b".data false = "a".data := by decide
example : Wcurl.spec_filename_amended "http://e/a#b".data false = "a#b".data := by decide
